import Mathlib

/-!
# stCached: a Raft-replicated key-value cache

Shallow embedding of the integration layer of the repository (`http.go`, `main.go`,
`cluster.go`, `snapshot.go`).  The consensus library (`hashicorp/raft`), the Go
standard library and the operating system are collaborators: every call made on them
is recorded in a trace and their answers are parameters of the model.

Conventions.
* A Go `error` result is `Option Error` (`none` is `nil`); a `(value, error)` result
  is `Except Error value`.
* A pointer that can be `nil` when it is dereferenced is an `Option`.
* A Go channel is the sequence of the values received from it.
-/

namespace StCached

/-! ## Go values -/

/-- A Go `error` value. -/
structure Error where
  msg : String
deriving DecidableEq, Repr

/-- Go `[]byte`. -/
abbrev Bytes := List UInt8

/-- Go `time.Duration`: a number of nanoseconds. -/
abbrev Duration := Int

/-- Go `time.Second`. -/
def Second : Duration := 1000000000

/-- `raft.ErrNotLeader`, the error of a future submitted to a node that is not leader. -/
def ErrNotLeader : Error := ⟨"node is not the leader"⟩

/-! ## The consensus module (`github.com/hashicorp/raft`) -/

/-- `raft.Server`: one member of a configuration. -/
structure Server where
  ID : String
  Address : String
deriving DecidableEq, Repr

/-- `raft.Configuration`. -/
structure Configuration where
  Servers : List Server
deriving DecidableEq, Repr

/-- Calls on the collaborators of the request handlers and of `newRaftNode`,
recorded in program order. -/
inductive Call where
  | cmGet (key : String)
  | Apply (cmd : Bytes) (timeout : Duration)
  | AddVoter (id : String) (address : String) (prevIndex : Nat) (timeout : Duration)
  | BootstrapCluster (configuration : Configuration)
deriving DecidableEq, Repr

/-- A `*raft.Raft`.  `Apply cmd timeout` and `AddVoter id address prevIndex timeout`
give what `.Error()` of the returned future resolves to. -/
structure Raft where
  Apply : Bytes → Duration → Option Error
  AddVoter : String → String → Nat → Duration → Option Error

/-- The fields of `raft.Config` that `newRaftNode` sets (`NotifyCh` is the
`leaderNotifyCh` of `raftNodeInfo`). -/
structure Config where
  LocalID : String
  SnapshotInterval : Duration
  SnapshotThreshold : Nat
deriving DecidableEq, Repr

/-- `raft.DefaultConfig()`. -/
def DefaultConfig : Config :=
  { LocalID := "", SnapshotInterval := 120 * Second, SnapshotThreshold := 8192 }

/-- Go `net.TCPAddr` of the `tcp4` network. -/
structure TCPAddr where
  IP : String
  Port : Nat
deriving DecidableEq, Repr

/-- `(*net.TCPAddr).String()`: host and port joined by a colon. -/
def TCPAddr.String (a : TCPAddr) : String :=
  a.IP ++ ":" ++ toString a.Port

/-- A `*raft.NetworkTransport`; `LocalAddr` is what `transport.LocalAddr()` returns. -/
structure NetworkTransport where
  LocalAddr : String
deriving DecidableEq, Repr

/-! ## Data model of the repository -/

/-- Modelled from the spec: the `options` type declaration (process configuration) is
not among the sources; its fields are the ones read by `main.go` and `cluster.go`:
HTTP listen address, the consensus module's own peer network address, data directory
path, bootstrap flag, optional join-target address. -/
structure options where
  httpAddress : String
  raftTCPAddress : String
  dataDir : String
  bootstrap : Bool
  joinAddress : String
deriving DecidableEq, Repr

/-- Modelled from the spec: the Cache Store (`cacheManager` is not among the sources),
a mapping from string key to string value with unique keys. -/
structure cacheManager where
  data : List (String × String)
deriving DecidableEq, Repr

/-- Modelled from the spec: `get(key) -> value | absent`, a pure read without side
effects that never fails; an absent key reads as the empty string. -/
def cacheManager.Get (c : cacheManager) (key : String) : String :=
  match c.data.lookup key with
  | some value => value
  | none => ""

/-- Modelled from the spec: the Command, a `key, value` pair representing a set
operation (the `logEntryData` type declaration is not among the sources; `doSet` builds
it from two strings). -/
structure logEntryData where
  Key : String
  Value : String
deriving DecidableEq, Repr

/-- `json.Marshal` applied to a `logEntryData`.  The encoder of Go has no failing case
for a struct of two strings (invalid UTF-8 is replaced, not rejected), so the result is
always a byte string; its layout is the parameter `layout`. -/
def jsonMarshal (layout : logEntryData → Bytes) (event : logEntryData) : Except Error Bytes :=
  .ok (layout event)

/-- The struct `raftNodeInfo` of `cluster.go`.  The channel `leaderNotifyCh` is the
sequence of leadership events still to be received from it. -/
structure raftNodeInfo where
  raft : Raft
  leaderNotifyCh : List Bool

/-- The struct `stCached` of `main.go`; `raft` is nil until `main` assigns it.  The
back pointer `hs` is kept by the state of `main`. -/
structure stCached where
  opts : options
  cm : cacheManager
  raft : Option raftNodeInfo

/-- The struct `stCachedContext` of `main.go`. -/
structure stCachedContext where
  st : stCached

/-- `ENABLE_WRITE_TRUE = int32(1)`. -/
def ENABLE_WRITE_TRUE : Int := 1

/-- `ENABLE_WRITE_FALSE = int32(0)`. -/
def ENABLE_WRITE_FALSE : Int := 0

/-- The struct `httpServer` of `http.go` (the logger is the `logs` of `Served`, the
mux is fixed by `NewHttpServer`). -/
structure httpServer where
  ctx : stCachedContext
  enableWrite : Int

/-- `NewHttpServer`. -/
def NewHttpServer (ctx : stCachedContext) : httpServer :=
  { ctx := ctx, enableWrite := ENABLE_WRITE_FALSE }

/-- `(*httpServer).checkWritePermission`. -/
def httpServer.checkWritePermission (h : httpServer) : Bool :=
  decide (h.enableWrite = ENABLE_WRITE_TRUE)

/-- `(*httpServer).setWriteFlag`. -/
def httpServer.setWriteFlag (h : httpServer) (flag : Bool) : httpServer :=
  if flag then
    { h with enableWrite := ENABLE_WRITE_TRUE }
  else
    { h with enableWrite := ENABLE_WRITE_FALSE }

/-! ## HTTP requests and responses -/

/-- Go `url.Values`, a `map[string][]string`: a missing key has no values. -/
abbrev Values := String → List String

/-- `url.Values.Get`: the first value of the key, or the empty string. -/
def Values.Get (v : Values) (key : String) : String :=
  match v key with
  | [] => ""
  | x :: _ => x

/-- The part of `*http.Request` the handlers read: `r.URL.Query()`. -/
structure Request where
  Query : Values

/-- What one run of a handler did: the receiver after the run, the bytes written to the
`http.ResponseWriter`, the calls on the Cache Store and on the consensus module, the
lines handed to the logger, and whether the run ended in a nil pointer dereference. -/
structure Served where
  h : httpServer
  body : String
  calls : List Call
  logs : List String
  nilDereference : Bool

/-- A handler run that has done nothing yet. -/
def Served.start (h : httpServer) : Served :=
  { h := h, body := "", calls := [], logs := [], nilDereference := false }

/-- `fmt.Fprint(w, text)`. -/
def Served.Fprint (w : Served) (text : String) : Served :=
  { w with body := w.body ++ text }

/-- `h.log.Println(line)` and `h.log.Printf`. -/
def Served.Println (w : Served) (line : String) : Served :=
  { w with logs := w.logs ++ [line] }

/-- A call on a collaborator. -/
def Served.call (w : Served) (c : Call) : Served :=
  { w with calls := w.calls ++ [c] }

/-- The run panics on a nil pointer. -/
def Served.panicNil (w : Served) : Served :=
  { w with nilDereference := true }

/-- `(*httpServer).doGet`. -/
def doGet (h : httpServer) (r : Request) : Served :=
  let w := Served.start h
  let vars := r.Query
  let key := Values.Get vars "key"
  if key = "" then
    (w.Println "doGet() error, get nil key").Fprint ""
  else
    let ret := h.ctx.st.cm.Get key
    (w.call (.cmGet key)).Fprint (ret ++ "\n")

/-- `(*httpServer).doSet`; `marshal` is `json.Marshal` on the event. -/
def doSet (marshal : logEntryData → Except Error Bytes) (h : httpServer) (r : Request) :
    Served :=
  let w := Served.start h
  if ¬ h.checkWritePermission then
    w.Fprint "write method not allowed\n"
  else
    let vars := r.Query
    let key := Values.Get vars "key"
    let value := Values.Get vars "value"
    if key = "" ∨ value = "" then
      (w.Println "doSet() error, get nil key or nil value").Fprint "param error\n"
    else
      let event : logEntryData := { Key := key, Value := value }
      match marshal event with
      | .error err =>
        (w.Println ("json.Marshal failed, err:" ++ err.msg)).Fprint "internal error\n"
      | .ok eventBytes =>
        match h.ctx.st.raft with
        | none => w.panicNil
        | some node =>
          let w := w.call (.Apply eventBytes (5 * Second))
          match node.raft.Apply eventBytes (5 * Second) with
          | some err =>
            (w.Println ("raft.Apply failed:" ++ err.msg)).Fprint "internal error\n"
          | none => w.Fprint "ok\n"

/-- `(*httpServer).doJoin`. -/
def doJoin (h : httpServer) (r : Request) : Served :=
  let w := Served.start h
  let vars := r.Query
  let peerAddress := Values.Get vars "peerAddress"
  if peerAddress = "" then
    (w.Println "invalid PeerAddress").Fprint "invalid peerAddress\n"
  else
    match h.ctx.st.raft with
    | none => w.panicNil
    | some node =>
      let w := w.call (.AddVoter peerAddress peerAddress 0 0)
      match node.raft.AddVoter peerAddress peerAddress 0 0 with
      | some err =>
        (w.Println ("Error joining peer to raft, peeraddress:" ++ peerAddress ++ ", err:"
          ++ err.msg ++ ", code:500")).Fprint "internal error\n"
      | none => w.Fprint "ok"

/-! ## Snapshots (`snapshot.go`) -/

/-- The struct `snapshot`. -/
structure snapshot where
  cm : cacheManager
deriving DecidableEq, Repr

/-- A `raft.SnapshotSink` with internal state `σ`: every method returns the next state
of the sink and its Go results (`Write` gives the byte count and the error). -/
structure SnapshotSink (σ : Type) where
  Write : σ → Bytes → σ × Nat × Option Error
  Close : σ → σ × Option Error
  Cancel : σ → σ × Option Error

/-- The calls a sink receives. -/
inductive SinkCall where
  | Write (p : Bytes)
  | Close
  | Cancel
deriving DecidableEq, Repr

/-- What one run of `Persist` did: the returned error, the Cache Store after the run,
the state of the sink after the run and the calls the sink received, in order. -/
structure Persisted (σ : Type) where
  err : Option Error
  cm : cacheManager
  sink : σ
  calls : List SinkCall

/-- `(*snapshot).Persist`; `Marshal` is `s.cm.Marshal`, the serialization of the Cache
Store, which reads the store and returns the bytes or an error. -/
def Persist {σ : Type} (Marshal : cacheManager → Except Error Bytes) (s : snapshot)
    (sink : SnapshotSink σ) (st : σ) : Persisted σ :=
  match Marshal s.cm with
  | .error err =>
    let c := sink.Cancel st
    { err := some err, cm := s.cm, sink := c.1, calls := [.Cancel] }
  | .ok snapshotBytes =>
    match sink.Write st snapshotBytes with
    | (st1, _, some err) =>
      let c := sink.Cancel st1
      { err := some err, cm := s.cm, sink := c.1, calls := [.Write snapshotBytes, .Cancel] }
    | (st1, _, none) =>
      match sink.Close st1 with
      | (st2, some err) =>
        let c := sink.Cancel st2
        { err := some err, cm := s.cm, sink := c.1,
          calls := [.Write snapshotBytes, .Close, .Cancel] }
      | (st2, none) =>
        { err := none, cm := s.cm, sink := st2, calls := [.Write snapshotBytes, .Close] }

/-! ## Cluster membership (`cluster.go`) -/

/-- An `*http.Response` as `joinRaftCluster` uses it: `Body` is the result of
`ioutil.ReadAll(resp.Body)`, converted to a string. -/
structure Response where
  Body : Except Error String

/-- The world outside the process: operating system, network and libraries. -/
structure Env where
  /-- The error of `net.Listen("tcp", address)`. -/
  Listen : String → Option Error
  /-- Result of `net.ResolveTCPAddr("tcp4", address)`. -/
  ResolveTCPAddr : String → Except Error TCPAddr
  /-- Result of `raft.NewTCPTransport(bindAddr, advertise, 3, 10s, stderr)`. -/
  NewTCPTransport : String → TCPAddr → Except Error NetworkTransport
  /-- The error of `os.MkdirAll(dir, 0700)`. -/
  MkdirAll : String → Option Error
  /-- The error of `raft.NewFileSnapshotStore(dir, 1, stderr)`. -/
  NewFileSnapshotStore : String → Option Error
  /-- The error of `raftboltdb.NewBoltStore(filepath.Join(dir, name))`. -/
  NewBoltStore : String → String → Option Error
  /-- Result of `raft.NewRaft(config, fsm, logStore, stableStore, snapshotStore,
  transport)`. -/
  NewRaft : Config → NetworkTransport → Except Error Raft
  /-- The leadership events the consensus module sends on `NotifyCh`, in order. -/
  notifications : List Bool
  /-- Result of `http.Get(url)`. -/
  Get : String → Except Error Response

/-- `newRaftTransport`. -/
def newRaftTransport (env : Env) (opts : options) : Except Error NetworkTransport :=
  match env.ResolveTCPAddr opts.raftTCPAddress with
  | .error err => .error err
  | .ok address =>
    match env.NewTCPTransport address.String address with
    | .error err => .error err
    | .ok transport => .ok transport

/-- `newRaftNode`: the returned pair and the calls made on the new consensus node.
The channel made for `raftConfig.NotifyCh` is the sequence of events the consensus
module will send on it; the logger and the `FSM` value handed to `raft.NewRaft` play no
part in the calls. -/
def newRaftNode (env : Env) (opts : options) : Except Error raftNodeInfo × List Call :=
  let raftConfig : Config :=
    { DefaultConfig with
      LocalID := opts.raftTCPAddress
      SnapshotInterval := 20 * Second
      SnapshotThreshold := 2 }
  let leaderNotifyCh := env.notifications
  match newRaftTransport env opts with
  | .error err => (.error err, [])
  | .ok transport =>
    match env.MkdirAll opts.dataDir with
    | some err => (.error err, [])
    | none =>
      match env.NewFileSnapshotStore opts.dataDir with
      | some err => (.error err, [])
      | none =>
        match env.NewBoltStore opts.dataDir "raft-log.bolt" with
        | some err => (.error err, [])
        | none =>
          match env.NewBoltStore opts.dataDir "raft-stable.bolt" with
          | some err => (.error err, [])
          | none =>
            match env.NewRaft raftConfig transport with
            | .error err => (.error err, [])
            | .ok raftNode =>
              let node : raftNodeInfo := { raft := raftNode, leaderNotifyCh := leaderNotifyCh }
              if opts.bootstrap then
                let configuration : Configuration :=
                  { Servers := [{ ID := raftConfig.LocalID, Address := transport.LocalAddr }] }
                (.ok node, [.BootstrapCluster configuration])
              else
                (.ok node, [])

/-- The URL of the join request:
`fmt.Sprintf("http://%s/join?peerAddress=%s", opts.joinAddress, opts.raftTCPAddress)`. -/
def joinURL (opts : options) : String :=
  "http://" ++ opts.joinAddress ++ "/join?peerAddress=" ++ opts.raftTCPAddress

/-- `joinRaftCluster`. -/
def joinRaftCluster (env : Env) (opts : options) : Option Error :=
  let url := joinURL opts
  match env.Get url with
  | .error err => some err
  | .ok resp =>
    match resp.Body with
    | .error err => some err
    | .ok body =>
      if body ≠ "ok" then
        some ⟨"Error joining cluster: " ++ body⟩
      else
        none

/-! ## Startup and the leadership monitor (`main.go`) -/

/-- Where `main` stands: about to start the HTTP server goroutine, about to build the
consensus node, about to join, in the leadership loop, or exited by `log.Fatal`. -/
inductive PC where
  | serve
  | newRaft
  | join
  | monitor
  | exited
deriving DecidableEq, Repr

/-- The state of the process: the position of `main`, the HTTP server `st.hs` (whose
`ctx.st` is the `st` of `main`) and whether `http.Serve` is handling requests. -/
structure MainState where
  pc : PC
  hs : httpServer
  serving : Bool

/-- Modelled from the spec: `NewCacheManager` is not among the sources; a new Cache
Store holds no key. -/
def NewCacheManager : cacheManager :=
  { data := [] }

/-- The body of the leadership loop of `main` for one received event. -/
def onLeaderEvent (hs : httpServer) (leader : Bool) : httpServer :=
  if leader then
    hs.setWriteFlag true
  else
    hs.setWriteFlag false

/-- The leadership loop of `main` run over the events it receives, in order. -/
def monitorLeadership (hs : httpServer) (events : List Bool) : httpServer :=
  events.foldl onLeaderEvent hs

/-- The start of `main` up to `st.hs = httpServer`: the state is built, the listener
is opened and the HTTP server is constructed. -/
def mainInit (env : Env) (opts : options) : MainState :=
  let st : stCached := { opts := opts, cm := NewCacheManager, raft := none }
  let ctx : stCachedContext := { st := st }
  match env.Listen st.opts.httpAddress with
  | some _ => { pc := .exited, hs := NewHttpServer ctx, serving := false }
  | none => { pc := .serve, hs := NewHttpServer ctx, serving := false }

/-- One step of `main`, by position:
* `serve`: `go func() { http.Serve(l, httpServer.mux) }()`, from now on requests are
  handled concurrently with the rest of `main`;
* `newRaft`: `raft, err := newRaftNode(st.opts, ctx)`, fatal on error, else
  `st.raft = raft`;
* `join`: `joinRaftCluster(st.opts)` when a join address is given, fatal on error;
* `monitor`: one round of the leadership loop, which receives the next event from
  `st.raft.leaderNotifyCh` (and blocks while there is none) and sets the write flag;
* `exited`: the process is gone. -/
def mainStep (env : Env) (s : MainState) : MainState :=
  match s.pc with
  | .serve => { s with pc := .newRaft, serving := true }
  | .newRaft =>
    match (newRaftNode env s.hs.ctx.st.opts).1 with
    | .error _ => { s with pc := .exited, serving := false }
    | .ok raft =>
      { s with
        pc := .join
        hs := { s.hs with ctx := { st := { s.hs.ctx.st with raft := some raft } } } }
  | .join =>
    if s.hs.ctx.st.opts.joinAddress ≠ "" then
      match joinRaftCluster env s.hs.ctx.st.opts with
      | some _ => { s with pc := .exited, serving := false }
      | none => { s with pc := .monitor }
    else
      { s with pc := .monitor }
  | .monitor =>
    match s.hs.ctx.st.raft with
    | none => { s with pc := .exited, serving := false }
    | some node =>
      match node.leaderNotifyCh with
      | [] => s
      | leader :: rest =>
        let hs := onLeaderEvent s.hs leader
        { s with
          hs := { hs with
            ctx := { st := { hs.ctx.st with
              raft := some { node with leaderNotifyCh := rest } } } } }
  | .exited => s

/-- The state reached from `s` by `n` steps of `main`. -/
def mainSteps (env : Env) : Nat → MainState → MainState
  | 0, s => s
  | n + 1, s => mainSteps env n (mainStep env s)

/-- The state of the process after `n` steps of `main`. -/
def mainRun (env : Env) (opts : options) (n : Nat) : MainState :=
  mainSteps env n (mainInit env opts)

/-- Modelled from the spec: the State Machine Adapter (the `FSM` is not among the
sources) mutates the Cache Store when the consensus module delivers a committed command
or a snapshot; here it may put any content in its place. -/
def fsmStep (s : MainState) (cm : cacheManager) : MainState :=
  { s with hs := { s.hs with ctx := { st := { s.hs.ctx.st with cm := cm } } } }

/-- The states the process goes through: `main` takes its steps, and at any moment the
State Machine Adapter may change the content of the Cache Store. -/
inductive Reachable (env : Env) (opts : options) : MainState → Prop where
  | init : Reachable env opts (mainInit env opts)
  | step (s : MainState) : Reachable env opts s → Reachable env opts (mainStep env s)
  | store (s : MainState) (cm : cacheManager) :
      Reachable env opts s → Reachable env opts (fsmStep s cm)

/-! ## Concrete inputs -/

/-- A consensus node that commits every command and accepts every new voter. -/
def leaderRaft : Raft :=
  { Apply := fun _ _ => none, AddVoter := fun _ _ _ _ => none }

/-- A consensus node that is not the leader: every future resolves to `ErrNotLeader`. -/
def followerRaft : Raft :=
  { Apply := fun _ _ => some ErrNotLeader, AddVoter := fun _ _ _ _ => some ErrNotLeader }

/-- Options of a seed node listening on `localhost`. -/
def seedOpts : options :=
  { httpAddress := "localhost:6000", raftTCPAddress := "localhost:7000",
    dataDir := "node0", bootstrap := true, joinAddress := "" }

/-- A world in which every set-up call succeeds, `localhost` resolves to `127.0.0.1`,
the transport advertises the resolved address and the node is elected once. -/
def calmEnv : Env :=
  { Listen := fun _ => none
    ResolveTCPAddr := fun address =>
      if address = "localhost:7000" then .ok { IP := "127.0.0.1", Port := 7000 }
      else if address = "127.0.0.1:7001" then .ok { IP := "127.0.0.1", Port := 7001 }
      else .error ⟨"missing port in address"⟩
    NewTCPTransport := fun _ advertise => .ok { LocalAddr := advertise.String }
    MkdirAll := fun _ => none
    NewFileSnapshotStore := fun _ => none
    NewBoltStore := fun _ _ => none
    NewRaft := fun _ _ => .ok leaderRaft
    notifications := [true]
    Get := fun _ => .ok { Body := .ok "ok" } }

/-- A world in which the address of the node does not resolve. -/
def unresolvedEnv : Env :=
  { calmEnv with ResolveTCPAddr := fun _ => .error ⟨"missing port in address"⟩ }

/-- Options of a second node that joins the seed node. -/
def joinerOpts : options :=
  { httpAddress := "localhost:6001", raftTCPAddress := "127.0.0.1:7001",
    dataDir := "node1", bootstrap := false, joinAddress := "localhost:6000" }

/-- A world in which the join request is answered by a node that is not leader. -/
def refusedEnv : Env :=
  { calmEnv with Get := fun _ => .ok { Body := .ok "internal error\n" } }

/-- A byte layout for commands: the key, a zero byte, the value. -/
def plainLayout (event : logEntryData) : Bytes :=
  event.Key.toList.map (fun c => c.toNat.toUInt8) ++ [0] ++
    event.Value.toList.map (fun c => c.toNat.toUInt8)

/-- A sink that stores what it is given and records a cancellation; its state is the
bytes written so far and whether it was cancelled. -/
def memorySink : SnapshotSink (Bytes × Bool) :=
  { Write := fun st p => ((st.1 ++ p, st.2), p.length, none)
    Close := fun st => (st, none)
    Cancel := fun st => ((st.1, true), none) }

/-- A sink whose disk is full: every write fails. -/
def fullSink : SnapshotSink (Bytes × Bool) :=
  { memorySink with Write := fun st _ => (st, 0, some ⟨"no space left on device"⟩) }

/-- A serialization of the store: the bytes of every key and value, zero-terminated. -/
def plainMarshal (cm : cacheManager) : Except Error Bytes :=
  .ok (cm.data.flatMap (fun kv => plainLayout ⟨kv.1, kv.2⟩ ++ [0]))

/-- A request whose query holds the given pairs. -/
def requestOf (pairs : List (String × String)) : Request :=
  { Query := fun key => (pairs.filter (fun p => p.1 = key)).map (fun p => p.2) }

/-- A store holding one key. -/
def oneKeyStore : cacheManager :=
  { data := [("x", "1")] }

/-- A server whose consensus node exists, with the Write Gate in the given state. -/
def serverWith (node : Raft) (enableWrite : Int) : httpServer :=
  { ctx := { st := { opts := seedOpts, cm := oneKeyStore,
                     raft := some { raft := node, leaderNotifyCh := [] } } },
    enableWrite := enableWrite }

/-- Invariant of `main`: the Write Gate cell holds 0 or 1, and while `st.raft` is nil
the gate is closed and `main` has not gone past the construction of the consensus
node (or has exited). -/
def StartupInv (s : MainState) : Prop :=
  (s.hs.enableWrite = ENABLE_WRITE_FALSE ∨ s.hs.enableWrite = ENABLE_WRITE_TRUE) ∧
    (s.hs.ctx.st.raft = none →
      s.hs.enableWrite = ENABLE_WRITE_FALSE ∧
        (s.pc = .serve ∨ s.pc = .newRaft ∨ s.pc = .exited))

end StCached

/-! # Theorems -/

namespace StCached

/-! ## Handlers: basic facts -/

theorem checkWritePermission_iff (h : httpServer) :
    h.checkWritePermission = true ↔ h.enableWrite = ENABLE_WRITE_TRUE := by
  simp [httpServer.checkWritePermission]

theorem empty_append_string (t : String) : "" ++ t = t := by
  apply String.ext
  simp

/-- With the Write Gate closed, `doSet` answers at once. -/
theorem doSet_of_denied (marshal : logEntryData → Except Error Bytes) (h : httpServer)
    (r : Request) (hd : h.checkWritePermission = false) :
    doSet marshal h r = (Served.start h).Fprint "write method not allowed\n" := by
  simp [doSet, hd]

/-- C1. For every `/set` request, whatever its parameters, when the Write Gate is
READ_ONLY (`enableWrite == 0`) `doSet` writes exactly the body
"write method not allowed\n", calls neither `raft.Apply` nor anything else (no call on
a collaborator, no log line, no nil dereference, receiver unchanged): the permission
check comes before the parameter validation. -/
theorem doSet_read_only_rejects (marshal : logEntryData → Except Error Bytes)
    (h : httpServer) (r : Request) (hro : h.enableWrite = ENABLE_WRITE_FALSE) :
    (doSet marshal h r).body = "write method not allowed\n" ∧
      (doSet marshal h r).calls = [] ∧
      (doSet marshal h r).logs = [] ∧
      (doSet marshal h r).nilDereference = false ∧
      (doSet marshal h r).h = h := by
  have hd : h.checkWritePermission = false := by
    simp [httpServer.checkWritePermission, hro, ENABLE_WRITE_FALSE, ENABLE_WRITE_TRUE]
  rw [doSet_of_denied marshal h r hd]
  simp [Served.Fprint, Served.start, empty_append_string]

/-- C1 at a concrete input: a well-formed write sent to a node whose gate is closed. -/
theorem doSet_read_only_rejects_witness :
    (serverWith leaderRaft 0).enableWrite = ENABLE_WRITE_FALSE ∧
      (doSet (jsonMarshal plainLayout) (serverWith leaderRaft 0)
          (requestOf [("key", "x"), ("value", "2")])).body = "write method not allowed\n" ∧
      (doSet (jsonMarshal plainLayout) (serverWith leaderRaft 0)
          (requestOf [("key", "x"), ("value", "2")])).calls = [] :=
  have h := doSet_read_only_rejects (jsonMarshal plainLayout) (serverWith leaderRaft 0)
    (requestOf [("key", "x"), ("value", "2")]) (by decide)
  ⟨by decide, h.1, h.2.1⟩

/-! ## Startup invariant -/

theorem startupInv_init (env : Env) (opts : options) : StartupInv (mainInit env opts) := by
  unfold mainInit StartupInv
  dsimp only
  split <;> simp [NewHttpServer]

theorem startupInv_step (env : Env) (s : MainState) (hs : StartupInv s) :
    StartupInv (mainStep env s) := by
  obtain ⟨h01, hnil⟩ := hs
  unfold mainStep
  split
  · rename_i hpc
    exact ⟨h01, fun hr => ⟨(hnil hr).1, Or.inr (Or.inl rfl)⟩⟩
  · split
    · exact ⟨h01, fun hr => ⟨(hnil hr).1, Or.inr (Or.inr rfl)⟩⟩
    · exact ⟨h01, fun hr => by simp at hr⟩
  · rename_i hpc
    have hsome : s.hs.ctx.st.raft ≠ none := by
      intro hr
      rcases (hnil hr).2 with h | h | h <;> simp [hpc] at h
    split
    · split
      · exact ⟨h01, fun hr => absurd hr hsome⟩
      · exact ⟨h01, fun hr => absurd hr hsome⟩
    · exact ⟨h01, fun hr => absurd hr hsome⟩
  · split
    · exact ⟨h01, fun hr => ⟨(hnil hr).1, Or.inr (Or.inr rfl)⟩⟩
    · split
      · exact ⟨h01, hnil⟩
      · refine ⟨?_, fun hr => by simp at hr⟩
        rename_i leader rest hch
        cases leader <;> simp [onLeaderEvent, httpServer.setWriteFlag]
  · exact ⟨h01, hnil⟩

theorem startupInv_steps (env : Env) (n : Nat) (s : MainState) (hs : StartupInv s) :
    StartupInv (mainSteps env n s) := by
  induction n generalizing s with
  | zero => exact hs
  | succ n ih => exact ih (mainStep env s) (startupInv_step env s hs)

theorem startupInv_of_reachable (env : Env) (opts : options) (s : MainState)
    (hreach : Reachable env opts s) : StartupInv s := by
  induction hreach with
  | init => exact startupInv_init env opts
  | step s _ ih => exact startupInv_step env s ih
  | store s cm _ ih => exact ih

theorem reachable_mainSteps (env : Env) (opts : options) (n : Nat) (s : MainState)
    (hreach : Reachable env opts s) : Reachable env opts (mainSteps env n s) := by
  induction n generalizing s with
  | zero => exact hreach
  | succ n ih => exact ih (mainStep env s) (Reachable.step s hreach)

/-- Every state of a run of `main` is a state of the process. -/
theorem reachable_mainRun (env : Env) (opts : options) (n : Nat) :
    Reachable env opts (mainRun env opts n) :=
  reachable_mainSteps env opts n _ Reachable.init

/-- In every state of `main`, an open Write Gate means that `st.raft` is assigned. -/
theorem raft_assigned_of_writable (env : Env) (opts : options) (s : MainState)
    (hreach : Reachable env opts s) (hw : s.hs.checkWritePermission = true) :
    ∃ node, s.hs.ctx.st.raft = some node := by
  have hinv := startupInv_of_reachable env opts s hreach
  rw [checkWritePermission_iff] at hw
  cases hraft : s.hs.ctx.st.raft with
  | some node => exact ⟨node, rfl⟩
  | none =>
    have h0 := (hinv.2 hraft).1
    rw [hw] at h0
    simp [ENABLE_WRITE_TRUE, ENABLE_WRITE_FALSE] at h0

/-! ## The write path -/

/-- What `doSet` does once the permission check has passed and `st.raft` is assigned. -/
theorem doSet_of_allowed (marshal : logEntryData → Except Error Bytes) (h : httpServer)
    (r : Request) (node : raftNodeInfo) (hw : h.checkWritePermission = true)
    (hraft : h.ctx.st.raft = some node) :
    doSet marshal h r =
      if Values.Get r.Query "key" = "" ∨ Values.Get r.Query "value" = "" then
        ((Served.start h).Println "doSet() error, get nil key or nil value").Fprint
          "param error\n"
      else
        match marshal ⟨Values.Get r.Query "key", Values.Get r.Query "value"⟩ with
        | .error err =>
          ((Served.start h).Println ("json.Marshal failed, err:" ++ err.msg)).Fprint
            "internal error\n"
        | .ok eventBytes =>
          match node.raft.Apply eventBytes (5 * Second) with
          | some err =>
            (((Served.start h).call (.Apply eventBytes (5 * Second))).Println
              ("raft.Apply failed:" ++ err.msg)).Fprint "internal error\n"
          | none => ((Served.start h).call (.Apply eventBytes (5 * Second))).Fprint "ok\n" := by
  simp only [doSet, hw, hraft]
  simp

/-- Should the encoder fail, `doSet` answers "internal error\n" without any call. -/
theorem doSet_of_marshal_error (marshal : logEntryData → Except Error Bytes)
    (h : httpServer) (r : Request) (err : Error) (hw : h.checkWritePermission = true)
    (hk : Values.Get r.Query "key" ≠ "") (hv : Values.Get r.Query "value" ≠ "")
    (hm : marshal ⟨Values.Get r.Query "key", Values.Get r.Query "value"⟩ = .error err) :
    (doSet marshal h r).body = "internal error\n" ∧ (doSet marshal h r).calls = [] := by
  simp [doSet, hw, hk, hv, hm, Served.Fprint, Served.Println, Served.start,
    empty_append_string]

/-- C2. For every `/set` request handled in a state of the process whose Write Gate is
WRITABLE: if `key` or `value` is empty the body is exactly "param error\n" and no call
is made (`raft.Apply` is not invoked); otherwise `raft.Apply` is invoked exactly once,
with the encoding of the command built from `key` and `value` (whatever the byte
layout of the encoder) and a timeout of 5 seconds, and the body is "ok\n" if and only
if the returned future resolves without error, and "internal error\n" otherwise. -/
theorem doSet_writable_contract (env : Env) (opts : options) (s : MainState)
    (hreach : Reachable env opts s) (hw : s.hs.checkWritePermission = true)
    (layout : logEntryData → Bytes) (r : Request) :
    (Values.Get r.Query "key" = "" ∨ Values.Get r.Query "value" = "" →
        (doSet (jsonMarshal layout) s.hs r).body = "param error\n" ∧
          (doSet (jsonMarshal layout) s.hs r).calls = []) ∧
      (¬ (Values.Get r.Query "key" = "" ∨ Values.Get r.Query "value" = "") →
        ∃ node, s.hs.ctx.st.raft = some node ∧
          (doSet (jsonMarshal layout) s.hs r).calls =
            [Call.Apply (layout ⟨Values.Get r.Query "key", Values.Get r.Query "value"⟩)
              (5 * Second)] ∧
          5 * Second = (5000000000 : Int) ∧
          ((doSet (jsonMarshal layout) s.hs r).body = "ok\n" ↔
            node.raft.Apply
              (layout ⟨Values.Get r.Query "key", Values.Get r.Query "value"⟩)
              (5 * Second) = none) ∧
          (node.raft.Apply
              (layout ⟨Values.Get r.Query "key", Values.Get r.Query "value"⟩)
              (5 * Second) ≠ none →
            (doSet (jsonMarshal layout) s.hs r).body = "internal error\n") ∧
          (doSet (jsonMarshal layout) s.hs r).nilDereference = false) := by
  obtain ⟨node, hraft⟩ := raft_assigned_of_writable env opts s hreach hw
  rw [doSet_of_allowed (jsonMarshal layout) s.hs r node hw hraft]
  constructor
  · intro hempty
    rw [if_pos hempty]
    simp [Served.Fprint, Served.Println, Served.start, empty_append_string]
  · intro hfull
    rw [if_neg hfull]
    refine ⟨node, hraft, ?_⟩
    simp only [jsonMarshal]
    cases hres : node.raft.Apply
        (layout ⟨Values.Get r.Query "key", Values.Get r.Query "value"⟩) (5 * Second) with
    | none =>
      simp [Served.Fprint, Served.call, Served.start, empty_append_string, Second]
    | some err =>
      simp [Served.Fprint, Served.call, Served.Println, Served.start, empty_append_string,
        Second]

/-- C2 at a concrete input: the seed node after its election, asked to set `x` to `2`. -/
theorem doSet_writable_contract_witness :
    Reachable calmEnv seedOpts (mainRun calmEnv seedOpts 4) ∧
      (mainRun calmEnv seedOpts 4).hs.checkWritePermission = true ∧
      (doSet (jsonMarshal plainLayout) (mainRun calmEnv seedOpts 4).hs
          (requestOf [("key", "x"), ("value", "2")])).calls =
        [Call.Apply (plainLayout ⟨"x", "2"⟩) 5000000000] ∧
      (doSet (jsonMarshal plainLayout) (mainRun calmEnv seedOpts 4).hs
          (requestOf [("key", "x"), ("value", "2")])).body = "ok\n" :=
  have h := doSet_writable_contract calmEnv seedOpts (mainRun calmEnv seedOpts 4)
    (reachable_mainRun calmEnv seedOpts 4) (by decide) plainLayout
    (requestOf [("key", "x"), ("value", "2")])
  ⟨reachable_mainRun calmEnv seedOpts 4, by decide, by
    obtain ⟨_, _, hcalls, _⟩ := h.2 (by decide)
    exact hcalls, by decide⟩

/-! ## The Write Gate -/

theorem onLeaderEvent_enableWrite (h : httpServer) (leader : Bool) :
    (onLeaderEvent h leader).enableWrite =
      if leader then ENABLE_WRITE_TRUE else ENABLE_WRITE_FALSE := by
  cases leader <;> simp [onLeaderEvent, httpServer.setWriteFlag]

theorem onLeaderEvent_ctx (h : httpServer) (leader : Bool) :
    (onLeaderEvent h leader).ctx = h.ctx := by
  cases leader <;> simp [onLeaderEvent, httpServer.setWriteFlag]

theorem monitorLeadership_append (h : httpServer) (earlier : List Bool) (leader : Bool) :
    monitorLeadership h (earlier ++ [leader]) =
      onLeaderEvent (monitorLeadership h earlier) leader := by
  simp [monitorLeadership, List.foldl_append]

theorem monitorLeadership_ctx (h : httpServer) (events : List Bool) :
    (monitorLeadership h events).ctx = h.ctx := by
  induction events generalizing h with
  | nil => rfl
  | cons e es ih =>
    show (monitorLeadership (onLeaderEvent h e) es).ctx = h.ctx
    rw [ih, onLeaderEvent_ctx]

/-- After the loop has consumed `events`, the gate of a server that started READ_ONLY
is open exactly when the last event was `true`. -/
theorem monitorLeadership_writable_iff (h : httpServer) (events : List Bool)
    (h0 : h.enableWrite = ENABLE_WRITE_FALSE) :
    (monitorLeadership h events).checkWritePermission = true ↔
      ∃ earlier, events = earlier ++ [true] := by
  rcases List.eq_nil_or_concat events with rfl | ⟨earlier, leader, rfl⟩
  · simp [monitorLeadership, httpServer.checkWritePermission, h0, ENABLE_WRITE_TRUE,
      ENABLE_WRITE_FALSE]
  · rw [List.concat_eq_append] at *
    rw [monitorLeadership_append, checkWritePermission_iff, onLeaderEvent_enableWrite]
    cases leader
    · simp only [Bool.false_eq_true, if_false]
      constructor
      · intro h
        simp [ENABLE_WRITE_TRUE, ENABLE_WRITE_FALSE] at h
      · rintro ⟨x, hx⟩
        have := (List.append_inj_right' hx rfl)
        simp at this
    · simp

theorem monitorLeadership_zero_or_one (h : httpServer) (events : List Bool)
    (h01 : h.enableWrite = ENABLE_WRITE_FALSE ∨ h.enableWrite = ENABLE_WRITE_TRUE) :
    (monitorLeadership h events).enableWrite = ENABLE_WRITE_FALSE ∨
      (monitorLeadership h events).enableWrite = ENABLE_WRITE_TRUE := by
  rcases List.eq_nil_or_concat events with rfl | ⟨earlier, leader, rfl⟩
  · exact h01
  · rw [List.concat_eq_append, monitorLeadership_append, onLeaderEvent_enableWrite]
    cases leader <;> simp

/-- The loop of `main` consumes the events waiting on the channel one per step, in
order, and leaves the server that `monitorLeadership` computes. -/
theorem mainSteps_monitor (env : Env) (events : List Bool) (s : MainState)
    (node : raftNodeInfo) (hpc : s.pc = .monitor) (hraft : s.hs.ctx.st.raft = some node)
    (hch : node.leaderNotifyCh = events) :
    (mainSteps env events.length s).pc = .monitor ∧
      (mainSteps env events.length s).hs.enableWrite =
        (monitorLeadership s.hs events).enableWrite ∧
      (mainSteps env events.length s).hs.ctx.st.raft =
        some { node with leaderNotifyCh := [] } := by
  induction events generalizing s node with
  | nil =>
    refine ⟨hpc, rfl, ?_⟩
    show s.hs.ctx.st.raft = _
    rw [hraft, ← hch]
  | cons e es ih =>
    have hstep : mainStep env s =
        { s with hs := { onLeaderEvent s.hs e with
            ctx := { st := { (onLeaderEvent s.hs e).ctx.st with
              raft := some { node with leaderNotifyCh := es } } } } } := by
      simp [mainStep, hpc, hraft, hch]
    have := ih (mainStep env s) { node with leaderNotifyCh := es }
      (by rw [hstep]; exact hpc) (by rw [hstep]) rfl
    refine ⟨this.1, ?_, this.2.2⟩
    show (mainSteps env es.length (mainStep env s)).hs.enableWrite = _
    rw [this.2.1, hstep]
    show _ = (monitorLeadership (onLeaderEvent s.hs e) es).enableWrite
    rcases List.eq_nil_or_concat es with rfl | ⟨earlier, leader, rfl⟩
    · simp [monitorLeadership, onLeaderEvent_enableWrite]
    · rw [List.concat_eq_append, monitorLeadership_append, monitorLeadership_append,
        onLeaderEvent_enableWrite, onLeaderEvent_enableWrite]

theorem mainSteps_add (env : Env) (m n : Nat) (s : MainState) :
    mainSteps env (m + n) s = mainSteps env n (mainSteps env m s) := by
  induction m generalizing s with
  | zero => simp [mainSteps]
  | succ m ih =>
    rw [Nat.succ_add]
    exact ih (mainStep env s)

theorem newRaftNode_channel (env : Env) (opts : options) (node : raftNodeInfo)
    (hok : (newRaftNode env opts).1 = .ok node) :
    node.leaderNotifyCh = env.notifications := by
  unfold newRaftNode at hok
  dsimp only at hok
  repeat' split at hok
  all_goals first
    | (simp at hok; done)
    | (simp at hok; rw [← hok])

/-- When the three startup steps of `main` lead into the leadership loop, the gate is
still READ_ONLY and the channel holds the events of the consensus module. -/
theorem startup_enters_monitor (env : Env) (opts : options)
    (hpc : (mainRun env opts 3).pc = .monitor) :
    (mainRun env opts 3).hs.enableWrite = ENABLE_WRITE_FALSE ∧
      ∃ node, (mainRun env opts 3).hs.ctx.st.raft = some node ∧
        node.leaderNotifyCh = env.notifications := by
  have h3 : mainRun env opts 3 =
      mainStep env (mainStep env (mainStep env (mainInit env opts))) := rfl
  rw [h3] at hpc ⊢
  cases hl : env.Listen opts.httpAddress with
  | some e => simp [mainInit, hl, mainStep] at hpc
  | none =>
    cases hn : (newRaftNode env opts).1 with
    | error e => simp [mainInit, hl, mainStep, NewHttpServer, hn] at hpc
    | ok node =>
      have hch := newRaftNode_channel env opts node hn
      by_cases hj : opts.joinAddress = ""
      · simp [mainInit, hl, mainStep, hn, hj, NewHttpServer, hch]
      · cases hjoin : joinRaftCluster env opts with
        | some e => simp [mainInit, hl, mainStep, NewHttpServer, hn, hj, hjoin] at hpc
        | none => simp [mainInit, hl, mainStep, hn, hj, hjoin, NewHttpServer, hch]

/-- C3. The Write Gate is a two-state machine that starts READ_ONLY and reflects the
most recent leadership event.  For every finite sequence `events` of leadership events:
a server freshly built by `NewHttpServer` denies writes; after the loop of `main` has
consumed `events` in order, `checkWritePermission` returns true if and only if the
sequence is non-empty and its last event is `true`; a `true` event opens the gate and a
`false` event closes it, whatever the state before; after every initial segment of the
events, and in every state of the process, `enableWrite` is 0 or 1; and the same holds
of `main` itself: when its startup reaches the leadership loop and the consensus module
delivers `events`, then after the loop has received them all the gate is open exactly
when the last event was `true`. -/
theorem write_gate_reflects_last_event (ctx : stCachedContext) (events : List Bool) :
    (NewHttpServer ctx).checkWritePermission = false ∧
      ((monitorLeadership (NewHttpServer ctx) events).checkWritePermission = true ↔
        ∃ earlier, events = earlier ++ [true]) ∧
      (∀ h : httpServer, (onLeaderEvent h true).checkWritePermission = true ∧
        (onLeaderEvent h false).checkWritePermission = false) ∧
      (∀ k, (monitorLeadership (NewHttpServer ctx) (events.take k)).enableWrite = 0 ∨
        (monitorLeadership (NewHttpServer ctx) (events.take k)).enableWrite = 1) ∧
      (∀ (env : Env) (opts : options) (s : MainState), Reachable env opts s →
        s.hs.enableWrite = 0 ∨ s.hs.enableWrite = 1) ∧
      (∀ (env : Env) (opts : options), env.notifications = events →
        (mainRun env opts 3).pc = .monitor →
        ((mainRun env opts (3 + events.length)).hs.checkWritePermission = true ↔
          ∃ earlier, events = earlier ++ [true])) := by
  refine ⟨rfl, monitorLeadership_writable_iff _ events rfl, ?_, ?_, ?_, ?_⟩
  · intro h
    simp [httpServer.checkWritePermission, onLeaderEvent_enableWrite, ENABLE_WRITE_TRUE,
      ENABLE_WRITE_FALSE]
  · intro k
    exact monitorLeadership_zero_or_one _ _ (Or.inl rfl)
  · intro env opts s hreach
    exact (startupInv_of_reachable env opts s hreach).1
  · intro env opts hev hpc
    obtain ⟨h0, node, hraft, hch⟩ := startup_enters_monitor env opts hpc
    have hrun := mainSteps_monitor env events (mainRun env opts 3) node hpc hraft
      (hch.trans hev)
    have hsplit : mainRun env opts (3 + events.length) =
        mainSteps env events.length (mainRun env opts 3) :=
      mainSteps_add env 3 events.length (mainInit env opts)
    rw [hsplit, checkWritePermission_iff, hrun.2.1, ← checkWritePermission_iff]
    exact monitorLeadership_writable_iff _ events h0

/-- C3 at a concrete input: the seed node is elected once and becomes writable; had
the election been followed by a loss of leadership, it would be read-only again. -/
theorem write_gate_reflects_last_event_witness :
    (mainRun calmEnv seedOpts (3 + [true].length)).hs.checkWritePermission = true ∧
      (monitorLeadership (NewHttpServer ⟨⟨seedOpts, NewCacheManager, none⟩⟩)
        [true, false]).checkWritePermission = false :=
  ⟨((write_gate_reflects_last_event ⟨⟨seedOpts, NewCacheManager, none⟩⟩
      [true]).2.2.2.2.2 calmEnv seedOpts rfl (by decide)).2 ⟨[], rfl⟩,
    by decide⟩

/-! ## The read path -/

/-- Without a `key` parameter `doGet` logs the error, writes nothing and reads nothing. -/
theorem doGet_of_missing_key (h : httpServer) (r : Request)
    (hk : Values.Get r.Query "key" = "") :
    doGet h r = ((Served.start h).Println "doGet() error, get nil key").Fprint "" := by
  simp [doGet, hk]

/-- With a non-empty `key` the body of `doGet` ends in a newline, so it is not empty. -/
theorem doGet_body_ne_empty (h : httpServer) (r : Request)
    (hk : Values.Get r.Query "key" ≠ "") : (doGet h r).body ≠ "" := by
  have hbody : (doGet h r).body = h.ctx.st.cm.Get (Values.Get r.Query "key") ++ "\n" := by
    simp [doGet, hk, Served.Fprint, Served.call, Served.start, empty_append_string]
  rw [hbody]
  intro hempty
  have hlen := congrArg String.length hempty
  simp [String.length_append] at hlen
  exact absurd hlen.2 (by decide)

/-- C6, the claim as stated fails.  A `/get` request without `key`, and one with an
empty `key`, is answered with an empty body: there is no message in the body at all,
the case is only logged on the server.  (A request with a key that the store does not
hold is answered "\n".) -/
theorem doGet_missing_key_empty_body :
    (doGet (serverWith leaderRaft 0) (requestOf [])).body = "" ∧
      (doGet (serverWith leaderRaft 0) (requestOf [])).logs =
        ["doGet() error, get nil key"] ∧
      (doGet (serverWith leaderRaft 0) (requestOf [])).calls = [] ∧
      (doGet (serverWith leaderRaft 0) (requestOf [("key", "")])).body = "" ∧
      (doGet (serverWith leaderRaft 0) (requestOf [("key", "missing")])).body = "\n" := by
  decide

/-- C6, amended.  For every `/get` request whose `key` parameter is missing or empty,
`doGet` writes an empty body, without any message for the client, and hands one error
line to the server log.  The empty body is distinguishable from the response to every
request with a non-empty key, on any server, in particular from the "\n" that answers a
key absent from the store.  The run reads nothing from the Cache Store, calls nothing,
does not panic and leaves the server unchanged. -/
theorem doGet_missing_key_silent (h : httpServer) (r : Request)
    (hk : Values.Get r.Query "key" = "") :
    (doGet h r).body = "" ∧
      (doGet h r).logs = ["doGet() error, get nil key"] ∧
      (∀ (h2 : httpServer) (r2 : Request), Values.Get r2.Query "key" ≠ "" →
        (doGet h2 r2).body ≠ (doGet h r).body) ∧
      (doGet h r).body ≠ "\n" ∧
      (doGet h r).calls = [] ∧
      (doGet h r).nilDereference = false ∧
      (doGet h r).h = h := by
  have hrun := doGet_of_missing_key h r hk
  have hbody : (doGet h r).body = "" := by
    rw [hrun]
    simp [Served.Fprint, Served.Println, Served.start, empty_append_string]
  refine ⟨hbody, ?_, ?_, ?_, ?_, ?_, ?_⟩
  · rw [hrun]
    simp [Served.Fprint, Served.Println, Served.start]
  · intro h2 r2 hk2
    rw [hbody]
    exact doGet_body_ne_empty h2 r2 hk2
  · rw [hbody]
    decide
  · rw [hrun]
    simp [Served.Fprint, Served.Println, Served.start]
  · rw [hrun]
    simp [Served.Fprint, Served.Println, Served.start]
  · rw [hrun]
    simp [Served.Fprint, Served.Println, Served.start]

/-- C6 amended, at concrete inputs: a request without `key` on a read-only node, set
against a request for a key the store does not hold. -/
theorem doGet_missing_key_silent_witness :
    Values.Get (requestOf [("value", "2")]).Query "key" = "" ∧
      (doGet (serverWith followerRaft 0) (requestOf [("value", "2")])).body = "" ∧
      (doGet (serverWith followerRaft 0) (requestOf [("key", "y")])).body ≠
        (doGet (serverWith followerRaft 0) (requestOf [("value", "2")])).body ∧
      (doGet (serverWith followerRaft 0) (requestOf [("value", "2")])).calls = [] :=
  have h := doGet_missing_key_silent (serverWith followerRaft 0)
    (requestOf [("value", "2")]) (by decide)
  ⟨by decide, h.1, h.2.2.1 (serverWith followerRaft 0) (requestOf [("key", "y")])
    (by decide), h.2.2.2.2.1⟩

/-- C8. For every `/get` request with a non-empty key, whatever the state of the Write
Gate: the body is exactly the current value of the key in the Cache Store followed by
"\n", which is the empty line "\n" when the key is absent; the only call is the read of
the Cache Store (no call on the consensus module); the server, and with it the Cache
Store and the Write Gate, is unchanged; and the answer is not an error: nothing is
logged, nothing panics, and the body differs from the empty body of the missing-key
case. -/
theorem doGet_present_key (h : httpServer) (r : Request)
    (hk : Values.Get r.Query "key" ≠ "") :
    (doGet h r).body = h.ctx.st.cm.Get (Values.Get r.Query "key") ++ "\n" ∧
      (h.ctx.st.cm.data.lookup (Values.Get r.Query "key") = none →
        (doGet h r).body = "\n") ∧
      (doGet h r).calls = [Call.cmGet (Values.Get r.Query "key")] ∧
      (doGet h r).h = h ∧
      (doGet h r).logs = [] ∧
      (doGet h r).nilDereference = false ∧
      (doGet h r).body ≠ "" := by
  have hbody : (doGet h r).body = h.ctx.st.cm.Get (Values.Get r.Query "key") ++ "\n" := by
    simp [doGet, hk, Served.Fprint, Served.call, Served.start, empty_append_string]
  refine ⟨hbody, ?_, ?_, ?_, ?_, ?_, ?_⟩
  · intro habsent
    rw [hbody]
    simp [cacheManager.Get, habsent, empty_append_string]
  · simp [doGet, hk, Served.Fprint, Served.call, Served.start]
  · simp [doGet, hk, Served.Fprint, Served.call, Served.start]
  · simp [doGet, hk, Served.Fprint, Served.call, Served.start]
  · simp [doGet, hk, Served.Fprint, Served.call, Served.start]
  · rw [hbody]
    intro hempty
    have hlen := congrArg String.length hempty
    simp [String.length_append] at hlen
    exact absurd hlen.2 (by decide)

/-- C8 at concrete inputs: a stored key and an absent key, on a read-only node. -/
theorem doGet_present_key_witness :
    Values.Get (requestOf [("key", "x")]).Query "key" ≠ "" ∧
      (doGet (serverWith followerRaft 0) (requestOf [("key", "x")])).body = "1\n" ∧
      (doGet (serverWith followerRaft 0) (requestOf [("key", "x")])).calls =
        [Call.cmGet "x"] ∧
      (doGet (serverWith followerRaft 0) (requestOf [("key", "y")])).body = "\n" :=
  have h := doGet_present_key (serverWith followerRaft 0) (requestOf [("key", "x")])
    (by decide)
  ⟨by decide, h.1.trans (by decide), h.2.2.1.trans (by decide), by decide⟩

/-! ## The join path, leader side -/

theorem doJoin_of_invalid (h : httpServer) (r : Request)
    (hp : Values.Get r.Query "peerAddress" = "") :
    doJoin h r =
      ((Served.start h).Println "invalid PeerAddress").Fprint "invalid peerAddress\n" := by
  simp [doJoin, hp]

theorem doJoin_of_nil (h : httpServer) (r : Request)
    (hp : Values.Get r.Query "peerAddress" ≠ "") (hraft : h.ctx.st.raft = none) :
    doJoin h r = (Served.start h).panicNil := by
  simp [doJoin, hp, hraft]

/-- The answers `doJoin` can give: its body is one of the three documented ones
whenever the run does not panic, and is empty when it does. -/
theorem doJoin_body_cases (h : httpServer) (r : Request) :
    ((doJoin h r).nilDereference = false ∧
        ((doJoin h r).body = "invalid peerAddress\n" ∨
          (doJoin h r).body = "internal error\n" ∨ (doJoin h r).body = "ok")) ∨
      ((doJoin h r).nilDereference = true ∧ (doJoin h r).body = "") := by
  by_cases hp : Values.Get r.Query "peerAddress" = ""
  · left
    rw [doJoin_of_invalid h r hp]
    simp [Served.Fprint, Served.Println, Served.start, empty_append_string]
  · cases hraft : h.ctx.st.raft with
    | none =>
      right
      rw [doJoin_of_nil h r hp hraft]
      simp [Served.panicNil, Served.start]
    | some node =>
      left
      cases hres : node.raft.AddVoter (Values.Get r.Query "peerAddress")
          (Values.Get r.Query "peerAddress") 0 0 <;>
        simp [doJoin, hp, hraft, hres, Served.Fprint, Served.Println, Served.call,
          Served.start, empty_append_string]

/-- The body of `doJoin` is "ok" exactly when `AddVoter` was invoked on the assigned
consensus node and the returned future resolved without error. -/
theorem doJoin_ok_iff (h : httpServer) (r : Request) :
    (doJoin h r).body = "ok" ↔
      Values.Get r.Query "peerAddress" ≠ "" ∧
        ∃ node, h.ctx.st.raft = some node ∧
          node.raft.AddVoter (Values.Get r.Query "peerAddress")
            (Values.Get r.Query "peerAddress") 0 0 = none := by
  by_cases hp : Values.Get r.Query "peerAddress" = ""
  · rw [doJoin_of_invalid h r hp]
    simp [Served.Fprint, Served.Println, Served.start, empty_append_string, hp]
  · cases hraft : h.ctx.st.raft with
    | none =>
      rw [doJoin_of_nil h r hp hraft]
      simp [Served.panicNil, Served.start]
    | some node =>
      cases hres : node.raft.AddVoter (Values.Get r.Query "peerAddress")
          (Values.Get r.Query "peerAddress") 0 0 with
      | none =>
        simp [doJoin, hp, hraft, hres, Served.Fprint, Served.call, Served.start,
          empty_append_string]
      | some err =>
        simp [doJoin, hp, hraft, hres, Served.Fprint, Served.Println, Served.call,
          Served.start, empty_append_string]

/-- The contract of `/join` on a node whose `st.raft` is assigned: an empty
`peerAddress` is refused without any call; otherwise `AddVoter` is invoked exactly once
with the address as identity and as address, `prevIndex` 0 and timeout 0, and the body
is "ok" exactly when the future resolves without error, "internal error\n" otherwise,
in particular when the future resolves to `ErrNotLeader`. -/
theorem doJoin_of_assigned (h : httpServer) (r : Request) (node : raftNodeInfo)
    (hraft : h.ctx.st.raft = some node) :
    (Values.Get r.Query "peerAddress" = "" →
        (doJoin h r).body = "invalid peerAddress\n" ∧ (doJoin h r).calls = []) ∧
      (Values.Get r.Query "peerAddress" ≠ "" →
        (doJoin h r).calls =
            [Call.AddVoter (Values.Get r.Query "peerAddress")
              (Values.Get r.Query "peerAddress") 0 0] ∧
          ((doJoin h r).body = "ok" ↔
            node.raft.AddVoter (Values.Get r.Query "peerAddress")
              (Values.Get r.Query "peerAddress") 0 0 = none) ∧
          (node.raft.AddVoter (Values.Get r.Query "peerAddress")
              (Values.Get r.Query "peerAddress") 0 0 ≠ none →
            (doJoin h r).body = "internal error\n") ∧
          (node.raft.AddVoter (Values.Get r.Query "peerAddress")
              (Values.Get r.Query "peerAddress") 0 0 = some ErrNotLeader →
            (doJoin h r).body = "internal error\n")) := by
  constructor
  · intro hp
    rw [doJoin_of_invalid h r hp]
    simp [Served.Fprint, Served.Println, Served.start, empty_append_string]
  · intro hp
    cases hres : node.raft.AddVoter (Values.Get r.Query "peerAddress")
        (Values.Get r.Query "peerAddress") 0 0 with
    | none =>
      simp [doJoin, hp, hraft, hres, Served.Fprint, Served.call, Served.start,
        empty_append_string]
    | some err =>
      simp [doJoin, hp, hraft, hres, Served.Fprint, Served.Println, Served.call,
        Served.start, empty_append_string]

/-- C5. The code at the failing input: a `/join` request with a valid `peerAddress`
that arrives after `main` has started the HTTP server and before it has assigned
`st.raft`.  `doJoin` dereferences the nil `st.raft`: `AddVoter` is not invoked and no
body is written, neither "ok" nor "internal error\n". -/
theorem doJoin_before_raft_assigned :
    (mainRun calmEnv seedOpts 1).serving = true ∧
      Values.Get (requestOf [("peerAddress", "127.0.0.1:7001")]).Query "peerAddress" ≠ "" ∧
      (doJoin (mainRun calmEnv seedOpts 1).hs
        (requestOf [("peerAddress", "127.0.0.1:7001")])).calls = [] ∧
      (doJoin (mainRun calmEnv seedOpts 1).hs
        (requestOf [("peerAddress", "127.0.0.1:7001")])).body = "" ∧
      (doJoin (mainRun calmEnv seedOpts 1).hs
        (requestOf [("peerAddress", "127.0.0.1:7001")])).nilDereference = true := by
  decide

/-! ## No use of the consensus node before it exists -/

/-- In every state of `main`, `doSet` never dereferences a nil `st.raft`: the Write
Gate is opened only after the assignment. -/
theorem doSet_never_nil (env : Env) (opts : options) (s : MainState)
    (hreach : Reachable env opts s) (marshal : logEntryData → Except Error Bytes)
    (r : Request) : (doSet marshal s.hs r).nilDereference = false := by
  cases hw : s.hs.checkWritePermission with
  | false =>
    rw [doSet_of_denied marshal s.hs r hw]
    rfl
  | true =>
    obtain ⟨node, hraft⟩ := raft_assigned_of_writable env opts s hreach hw
    rw [doSet_of_allowed marshal s.hs r node hw hraft]
    split
    · rfl
    · split
      · rfl
      · split <;> rfl

/-- C10. The code at the failing input.  After the first step of `main` the HTTP
server is serving while `st.raft` is still nil; a `/join` request with a valid
`peerAddress` handled in that state reaches `h.ctx.st.raft.raft.AddVoter` and
dereferences the nil pointer.  (`/set` is safe in every state of `main`, because its
Write Gate check fails until the leadership loop has run; `/join` has no such check.) -/
theorem doJoin_reaches_nil_raft :
    (∃ s, Reachable calmEnv seedOpts s ∧ s.serving = true ∧ s.pc = .newRaft ∧
        s.hs.ctx.st.raft = none ∧
        (doJoin s.hs (requestOf [("peerAddress", "127.0.0.1:7001")])).nilDereference =
          true) ∧
      (∀ (env : Env) (opts : options) (s : MainState)
        (marshal : logEntryData → Except Error Bytes) (r : Request),
        Reachable env opts s → (doSet marshal s.hs r).nilDereference = false) :=
  ⟨⟨mainRun calmEnv seedOpts 1, reachable_mainRun calmEnv seedOpts 1, by decide, by decide,
      rfl, by decide⟩,
    fun env opts s marshal r hreach => doSet_never_nil env opts s hreach marshal r⟩

/-! ## The join handshake, end to end -/

/-- `joinRaftCluster` succeeds exactly when the request and the read of the body
succeed and the body is "ok". -/
theorem joinRaftCluster_eq_none_iff (env : Env) (opts : options) :
    joinRaftCluster env opts = none ↔
      ∃ resp, env.Get (joinURL opts) = .ok resp ∧ resp.Body = .ok "ok" := by
  unfold joinRaftCluster
  dsimp only
  cases hget : env.Get (joinURL opts) with
  | error err => simp
  | ok resp =>
    cases hbody : resp.Body with
    | error err => simp [hbody]
    | ok body =>
      by_cases hok : body = "ok"
      · simp [hbody, hok]
      · simp [hbody, hok]

/-- C4. The join handshake agrees end to end.  `joinRaftCluster` returns nil if and
only if the HTTP request and the read of the body succeed and the body is exactly
"ok".  Hence, for every response `doJoin` can produce, once it is delivered to the
joining node, `joinRaftCluster` returns nil if and only if the leader side invoked
`AddVoter` and the returned future resolved without error; `doJoin` writes one of its
three bodies or, when it panics, none; each failure body of `doJoin`
("invalid peerAddress\n", "internal error\n") and each transport failure (of
the request or of the read of the body) makes `joinRaftCluster` return a non-nil error;
and `main`, when a join address is configured, enters the leadership loop if
`joinRaftCluster` returns nil and exits otherwise. -/
theorem join_handshake_agrees (env : Env) (opts : options) :
    (joinRaftCluster env opts = none ↔
        ∃ resp, env.Get (joinURL opts) = .ok resp ∧ resp.Body = .ok "ok") ∧
      (∀ (h : httpServer) (r : Request),
        env.Get (joinURL opts) = .ok { Body := .ok (doJoin h r).body } →
        (joinRaftCluster env opts = none ↔
          ∃ node, h.ctx.st.raft = some node ∧
            (doJoin h r).calls =
              [Call.AddVoter (Values.Get r.Query "peerAddress")
                (Values.Get r.Query "peerAddress") 0 0] ∧
            node.raft.AddVoter (Values.Get r.Query "peerAddress")
              (Values.Get r.Query "peerAddress") 0 0 = none)) ∧
      (∀ (h : httpServer) (r : Request),
        ((doJoin h r).nilDereference = false ∧
            ((doJoin h r).body = "invalid peerAddress\n" ∨
              (doJoin h r).body = "internal error\n" ∨ (doJoin h r).body = "ok")) ∨
          ((doJoin h r).nilDereference = true ∧ (doJoin h r).body = "")) ∧
      (∀ body, body = "invalid peerAddress\n" ∨ body = "internal error\n" →
        env.Get (joinURL opts) = .ok { Body := .ok body } →
        joinRaftCluster env opts ≠ none) ∧
      (∀ err, env.Get (joinURL opts) = .error err → joinRaftCluster env opts = some err) ∧
      (∀ resp err, env.Get (joinURL opts) = .ok resp → resp.Body = .error err →
        joinRaftCluster env opts = some err) ∧
      (∀ s : MainState, s.pc = .join → s.hs.ctx.st.opts = opts → opts.joinAddress ≠ "" →
        ((mainStep env s).pc = .monitor ↔ joinRaftCluster env opts = none) ∧
          ((mainStep env s).pc = .exited ↔ joinRaftCluster env opts ≠ none)) := by
  refine ⟨joinRaftCluster_eq_none_iff env opts, ?_, doJoin_body_cases, ?_, ?_, ?_, ?_⟩
  · intro h r hget
    rw [joinRaftCluster_eq_none_iff, hget]
    constructor
    · rintro ⟨resp, hresp, hbody⟩
      have hb : (doJoin h r).body = "ok" := by
        injection hresp with hresp
        rw [← hresp] at hbody
        injection hbody
      obtain ⟨hp, node, hraft, hres⟩ := (doJoin_ok_iff h r).1 hb
      exact ⟨node, hraft, ((doJoin_of_assigned h r node hraft).2 hp).1, hres⟩
    · rintro ⟨node, hraft, hcalls, hres⟩
      have hp : Values.Get r.Query "peerAddress" ≠ "" := by
        intro hp
        rw [((doJoin_of_assigned h r node hraft).1 hp).2] at hcalls
        simp at hcalls
      have hb := (doJoin_ok_iff h r).2 ⟨hp, node, hraft, hres⟩
      exact ⟨_, rfl, by rw [hb]⟩
  · intro body hbody hget
    rw [Ne, joinRaftCluster_eq_none_iff, hget]
    rintro ⟨resp, hresp, hok⟩
    injection hresp with hresp
    rw [← hresp] at hok
    injection hok with hok
    rcases hbody with hb | hb <;> rw [hb] at hok <;> exact absurd hok (by decide)
  · intro err hget
    simp [joinRaftCluster, hget]
  · intro resp err hget hbody
    simp [joinRaftCluster, hget, hbody]
  · intro s hpc hopts hj
    cases hjoin : joinRaftCluster env opts <;>
      simp [mainStep, hpc, hopts, hj, hjoin]

/-- C4 at concrete inputs: a node that is not leader answers "internal error\n" and
the joining node exits; the leader answers "ok" and the joining node goes on. -/
theorem join_handshake_agrees_witness :
    joinRaftCluster refusedEnv joinerOpts ≠ none ∧
      (mainRun refusedEnv joinerOpts 3).pc = .exited ∧
      joinRaftCluster calmEnv joinerOpts = none ∧
      (mainRun calmEnv joinerOpts 3).pc = .monitor :=
  ⟨(join_handshake_agrees refusedEnv joinerOpts).2.2.2.1 "internal error\n" (Or.inr rfl)
      rfl,
    by decide,
    (join_handshake_agrees calmEnv joinerOpts).1.2 ⟨_, rfl, rfl⟩,
    by decide⟩

/-! ## Snapshot persistence -/

/-- C7. `Persist` reports failures and abandons the attempt.  For every store, every
serialization result and every sink: `Persist` returns nil if and only if `Marshal`,
`sink.Write` and `sink.Close` all succeed, and then the sink received exactly one
`Write`, whose bytes are exactly the output of `Marshal`, followed by `Close`, and no
`Cancel`.  In every other case `Persist` returns the first error met, `sink.Cancel` is
invoked exactly once, as the last call, and no later step is attempted: a failing
`Marshal` leaves only `Cancel`, a failing `Write` leaves `Write, Cancel`, a failing
`Close` leaves `Write, Close, Cancel`, and in each of these cases the sink ends in the
state that its own `Cancel` produces from the state the failed step left (after success
it ends in the state its `Close` produced).  The store is the same after the run. -/
theorem persist_reports_and_abandons {σ : Type} (Marshal : cacheManager → Except Error Bytes)
    (s : snapshot) (sink : SnapshotSink σ) (st : σ) :
    ((Persist Marshal s sink st).err = none ↔
        ∃ p, Marshal s.cm = .ok p ∧ (sink.Write st p).2.2 = none ∧
          (sink.Close (sink.Write st p).1).2 = none) ∧
      ((Persist Marshal s sink st).err = none →
        ∃ p, Marshal s.cm = .ok p ∧
          (Persist Marshal s sink st).calls = [SinkCall.Write p, SinkCall.Close] ∧
          (Persist Marshal s sink st).sink = (sink.Close (sink.Write st p).1).1) ∧
      (∀ err, Marshal s.cm = .error err →
        (Persist Marshal s sink st).err = some err ∧
          (Persist Marshal s sink st).calls = [SinkCall.Cancel] ∧
          (Persist Marshal s sink st).sink = (sink.Cancel st).1) ∧
      (∀ p err, Marshal s.cm = .ok p → (sink.Write st p).2.2 = some err →
        (Persist Marshal s sink st).err = some err ∧
          (Persist Marshal s sink st).calls = [SinkCall.Write p, SinkCall.Cancel] ∧
          (Persist Marshal s sink st).sink = (sink.Cancel (sink.Write st p).1).1) ∧
      (∀ p err, Marshal s.cm = .ok p → (sink.Write st p).2.2 = none →
        (sink.Close (sink.Write st p).1).2 = some err →
        (Persist Marshal s sink st).err = some err ∧
          (Persist Marshal s sink st).calls =
            [SinkCall.Write p, SinkCall.Close, SinkCall.Cancel] ∧
          (Persist Marshal s sink st).sink =
            (sink.Cancel (sink.Close (sink.Write st p).1).1).1) ∧
      ((Persist Marshal s sink st).err ≠ none →
        (Persist Marshal s sink st).calls.count SinkCall.Cancel = 1 ∧
          (Persist Marshal s sink st).calls.getLast? = some SinkCall.Cancel) ∧
      (Persist Marshal s sink st).cm = s.cm := by
  unfold Persist
  cases hm : Marshal s.cm with
  | error e => simp
  | ok p =>
    rcases hw : sink.Write st p with ⟨st1, n, _ | ew⟩
    · rcases hc : sink.Close st1 with ⟨st2, _ | ec⟩
      · simp [hw, hc]
        constructor <;> (rintro q err rfl; simp [hw, hc])
      · simp [hw, hc]
        constructor <;> (rintro q err rfl; simp [hw, hc])
    · simp [hw]
      constructor <;> (rintro q err rfl; simp [hw])

/-- C7 at concrete inputs: a sink that accepts everything, and a sink whose disk is
full. -/
theorem persist_reports_and_abandons_witness :
    (Persist plainMarshal ⟨oneKeyStore⟩ memorySink ([], false)).err = none ∧
      (Persist plainMarshal ⟨oneKeyStore⟩ memorySink ([], false)).sink =
        ([120, 0, 49, 0], false) ∧
      (Persist plainMarshal ⟨oneKeyStore⟩ fullSink ([], false)).err =
        some ⟨"no space left on device"⟩ ∧
      (Persist plainMarshal ⟨oneKeyStore⟩ fullSink ([], false)).calls =
        [SinkCall.Write [120, 0, 49, 0], SinkCall.Cancel] ∧
      (Persist plainMarshal ⟨oneKeyStore⟩ fullSink ([], false)).sink = ([], true) :=
  ⟨(persist_reports_and_abandons plainMarshal ⟨oneKeyStore⟩ memorySink ([], false)).1.2
      ⟨[120, 0, 49, 0], rfl, rfl, rfl⟩,
    by decide,
    ((persist_reports_and_abandons plainMarshal ⟨oneKeyStore⟩ fullSink
      ([], false)).2.2.2.1 [120, 0, 49, 0] ⟨"no space left on device"⟩ rfl rfl).1,
    by decide,
    ((persist_reports_and_abandons plainMarshal ⟨oneKeyStore⟩ fullSink
      ([], false)).2.2.2.1 [120, 0, 49, 0] ⟨"no space left on device"⟩ rfl rfl).2.2⟩

/-! ## Bootstrap -/

/-- Every failing set-up step makes `newRaftNode` return before any call on the
consensus node. -/
theorem newRaftNode_error_no_call (env : Env) (opts : options) (err : Error)
    (herr : (newRaftNode env opts).1 = .error err) : (newRaftNode env opts).2 = [] := by
  unfold newRaftNode at herr ⊢
  dsimp only at herr ⊢
  repeat' split
  all_goals first
    | rfl
    | (exfalso; simp_all)

/-- What `newRaftNode` does when every set-up step succeeds. -/
theorem newRaftNode_ok (env : Env) (opts : options) (node : raftNodeInfo)
    (hok : (newRaftNode env opts).1 = .ok node) :
    ∃ transport, newRaftTransport env opts = .ok transport ∧
      env.NewRaft
        { LocalID := opts.raftTCPAddress, SnapshotInterval := 20 * Second,
          SnapshotThreshold := 2 } transport = .ok node.raft ∧
      (newRaftNode env opts).2 =
        if opts.bootstrap then
          [Call.BootstrapCluster
            { Servers := [{ ID := opts.raftTCPAddress, Address := transport.LocalAddr }] }]
        else [] := by
  unfold newRaftNode at hok ⊢
  dsimp only at hok ⊢
  cases ht : newRaftTransport env opts with
  | error e => simp [ht] at hok
  | ok transport =>
    refine ⟨transport, rfl, ?_⟩
    cases hmk : env.MkdirAll opts.dataDir with
    | some e => simp [ht, hmk] at hok
    | none =>
      cases hsn : env.NewFileSnapshotStore opts.dataDir with
      | some e => simp [ht, hmk, hsn] at hok
      | none =>
        cases hlog : env.NewBoltStore opts.dataDir "raft-log.bolt" with
        | some e => simp [ht, hmk, hsn, hlog] at hok
        | none =>
          cases hst : env.NewBoltStore opts.dataDir "raft-stable.bolt" with
          | some e => simp [ht, hmk, hsn, hlog, hst] at hok
          | none =>
            cases hnew : env.NewRaft
                { DefaultConfig with
                  LocalID := opts.raftTCPAddress
                  SnapshotInterval := 20 * Second
                  SnapshotThreshold := 2 } transport with
            | error e => simp [ht, hmk, hsn, hlog, hst, hnew] at hok
            | ok raftNode =>
              cases hb : opts.bootstrap <;>
                simp [ht, hmk, hsn, hlog, hst, hnew, hb] at hok ⊢ <;>
                rw [← hok]

theorem newRaftTransport_ok (env : Env) (opts : options) (transport : NetworkTransport)
    (hok : newRaftTransport env opts = .ok transport) :
    ∃ address, env.ResolveTCPAddr opts.raftTCPAddress = .ok address ∧
      env.NewTCPTransport address.String address = .ok transport := by
  unfold newRaftTransport at hok
  cases hr : env.ResolveTCPAddr opts.raftTCPAddress with
  | error e => simp [hr] at hok
  | ok address =>
    refine ⟨address, rfl, ?_⟩
    cases hn : env.NewTCPTransport address.String address with
    | error e => simp [hr, hn] at hok
    | ok t =>
      simp [hr, hn] at hok
      rw [hok]

/-- C9, the claim as stated fails.  On a seed node configured with the address
`localhost:7000`, which resolves to `127.0.0.1:7000`, the single server of the
bootstrap configuration has the identity `localhost:7000` and the address
`127.0.0.1:7000`: identity and address are not the same string.  And when the address
does not resolve, `newRaftNode` fails before it calls `BootstrapCluster`, although
`opts.bootstrap` is set. -/
theorem bootstrap_identity_is_not_address :
    seedOpts.bootstrap = true ∧
      (newRaftNode calmEnv seedOpts).2 =
        [Call.BootstrapCluster ⟨[⟨"localhost:7000", "127.0.0.1:7000"⟩]⟩] ∧
      (newRaftNode calmEnv seedOpts).2 ≠
        [Call.BootstrapCluster ⟨[⟨seedOpts.raftTCPAddress, seedOpts.raftTCPAddress⟩]⟩] ∧
      (newRaftNode unresolvedEnv seedOpts).2 = [] := by
  decide

/-- C9, amended.  When `opts.bootstrap` is set and every set-up step of `newRaftNode`
succeeds, `BootstrapCluster` is called exactly once, with a configuration holding
exactly one server: its identity is the `LocalID` of the node, `opts.raftTCPAddress`,
and its address is `transport.LocalAddr()`, the local address of the transport built
on the resolved form of `opts.raftTCPAddress`.  When `opts.bootstrap` is not set, or a
set-up step fails, `BootstrapCluster` is never called. -/
theorem bootstrap_single_member (env : Env) (opts : options) :
    (opts.bootstrap = false → (newRaftNode env opts).2 = []) ∧
      (∀ err, (newRaftNode env opts).1 = .error err → (newRaftNode env opts).2 = []) ∧
      (opts.bootstrap = true → ∀ node, (newRaftNode env opts).1 = .ok node →
        ∃ address transport,
          env.ResolveTCPAddr opts.raftTCPAddress = .ok address ∧
          env.NewTCPTransport address.String address = .ok transport ∧
          env.NewRaft
            { LocalID := opts.raftTCPAddress, SnapshotInterval := 20 * Second,
              SnapshotThreshold := 2 } transport = .ok node.raft ∧
          (newRaftNode env opts).2 =
            [Call.BootstrapCluster
              { Servers :=
                  [{ ID := opts.raftTCPAddress, Address := transport.LocalAddr }] }]) := by
  refine ⟨?_, fun err herr => newRaftNode_error_no_call env opts err herr, ?_⟩
  · intro hb
    cases hres : (newRaftNode env opts).1 with
    | error err => exact newRaftNode_error_no_call env opts err hres
    | ok node =>
      obtain ⟨transport, _, _, hcalls⟩ := newRaftNode_ok env opts node hres
      rw [hcalls, hb]
      rfl
  · intro hb node hres
    obtain ⟨transport, ht, hnew, hcalls⟩ := newRaftNode_ok env opts node hres
    obtain ⟨address, hr, hn⟩ := newRaftTransport_ok env opts transport ht
    refine ⟨address, transport, hr, hn, hnew, ?_⟩
    rw [hcalls, hb]
    rfl

/-- C9 amended, at a concrete input: the seed node on `localhost:7000`. -/
theorem bootstrap_single_member_witness :
    seedOpts.bootstrap = true ∧
      (∃ address transport,
        calmEnv.ResolveTCPAddr seedOpts.raftTCPAddress = .ok address ∧
        calmEnv.NewTCPTransport address.String address = .ok transport ∧
        (newRaftNode calmEnv seedOpts).2 =
          [Call.BootstrapCluster
            { Servers :=
                [{ ID := seedOpts.raftTCPAddress, Address := transport.LocalAddr }] }]) ∧
      (newRaftNode calmEnv joinerOpts).2 = [] :=
  ⟨rfl,
    by
      obtain ⟨address, transport, hr, hn, _, hcalls⟩ :=
        (bootstrap_single_member calmEnv seedOpts).2.2 rfl
          ⟨leaderRaft, calmEnv.notifications⟩ rfl
      exact ⟨address, transport, hr, hn, hcalls⟩,
    (bootstrap_single_member calmEnv joinerOpts).1 rfl⟩

end StCached
